import Mathlib

/-!
Verification of zgoubidoo's converter and survey core
(`src/zgoubidoo/converters/zgoubi.py` and `src/zgoubidoo/survey.py`).

Numeric model: the source manipulates Python/pint quantities whose magnitudes
are IEEE doubles, with `NaN` used as the "unset" sentinel.  We embed a
magnitude as `MValue`: either `nan` or an exact rational.  The comparison and
arithmetic operations mirror IEEE/Python semantics for the operations the
source actually performs: `nan == x` is false (hence `nan != 0` is true),
`nan < x` is false, arithmetic propagates `nan`, and division by (non-nan)
zero raises `ZeroDivisionError` (modelled as `Except.error`).  Units are
dropped: each magnitude is carried in the unit the source writes at that spot.
`np.pi` is the IEEE double closest to π, an exact rational.
-/

namespace Zgoubidoo

/-- Magnitude of a physical quantity: an exact rational, or the IEEE `NaN`
sentinel used by the source to mean "unset". -/
inductive MValue where
  | nan : MValue
  | num : ℚ → MValue
deriving DecidableEq

namespace MValue

/-- Test for `NaN` (`np.isnan`). -/
def isNan : MValue → Bool
  | nan => true
  | num _ => false

/-- IEEE equality test (`==` in Python): `NaN` compares unequal to everything. -/
def beq : MValue → MValue → Bool
  | num a, num b => a == b
  | _, _ => false

/-- IEEE strict less-than (`<` in Python): any comparison with `NaN` is false. -/
def lt : MValue → MValue → Bool
  | num a, num b => a < b
  | _, _ => false

/-- Negation; propagates `NaN`. -/
def neg : MValue → MValue
  | nan => nan
  | num a => num (-a)

/-- Absolute value (`np.abs`); propagates `NaN`. -/
def abs : MValue → MValue
  | nan => nan
  | num a => num |a|

/-- Sign (`np.sign`): -1, 0 or 1; `np.sign(NaN)` is `NaN`. -/
def sign : MValue → MValue
  | nan => nan
  | num a => num (if a < 0 then -1 else if a = 0 then 0 else 1)

/-- Addition; propagates `NaN`. -/
def add : MValue → MValue → MValue
  | num a, num b => num (a + b)
  | _, _ => nan

/-- Multiplication; propagates `NaN`. -/
def mul : MValue → MValue → MValue
  | num a, num b => num (a * b)
  | _, _ => nan

/-- Division with Python float semantics: a (non-nan) zero denominator raises
`ZeroDivisionError`; otherwise `NaN` propagates. -/
def div : MValue → MValue → Except String MValue
  | num a, num b =>
      if b = 0 then .error "ZeroDivisionError: float division by zero"
      else .ok (num (a / b))
  | nan, num b =>
      if b = 0 then .error "ZeroDivisionError: float division by zero"
      else .ok nan
  | _, nan => .ok nan

end MValue

/-- Exact rational value of `np.pi`, the IEEE-754 double nearest π. -/
def npPi : ℚ := 884279719003555 / 281474976710656

/-- Maximal label length for Zgoubi commands (`ZGOUBI_LABEL_LENGTH`, imported
by the source from `zgoubidoo.constants`, external to the two core files; its
exact value does not affect any claim). -/
def ZGOUBI_LABEL_LENGTH : Nat := 10

/-- Output of a conversion: one simulator command with its label and physical
parameters.  The constructors carry exactly the parameters the converters in
`converters/zgoubi.py` set; `COLOR` on `Bend` is the optional rendering
annotation attached after construction. -/
inductive Command where
  | Marker (label : String)
  | Drift (label : String) (XL : MValue)
  | Bend (label : String) (XL : MValue) (B1 : MValue) (KPOS : ℤ)
         (W_E : MValue) (W_S : MValue) (COLOR : Option String)
  | ChangeRef (label : String) (XR : MValue)
  | Multipole (label : String) (XL : MValue) (R0 : MValue) (B1 : MValue)
              (B2 : MValue) (R1 : MValue) (R2 : MValue) (KPOS : ℤ)
  | Quadrupole (label : String) (XL : MValue) (R0 : MValue) (B0 : MValue)
               (XE : MValue) (LAM_E : MValue) (XS : MValue) (LAM_S : MValue)
  | Sextupole (label : String) (XL : MValue)
  | Octupole (label : String) (XL : MValue)
  | Cavite (label : String) (IOPT : ℤ) (XL : MValue) (FREQ : MValue)
           (V : MValue) (PHI_S : MValue)
deriving DecidableEq

/-- Element: a named attribute bag with the fixed key set the converters read
(`element['KEY']` raises `KeyError` when absent, `element.get('KEY')` yields
`None`); a present key holds a magnitude that may be the `NaN` sentinel. -/
structure Element where
  name : String
  L : Option MValue := none
  ANGLE : Option MValue := none
  K1 : Option MValue := none
  K1L : Option MValue := none
  TILT : Option MValue := none
  E1 : Option MValue := none
  E2 : Option MValue := none
  FREQ : Option MValue := none
  VOLT : Option MValue := none
  LAG : Option MValue := none
deriving DecidableEq

/-- Keyed access `element['KEY']`: the value, or a `KeyError` when absent. -/
def req (v : Option MValue) (key : String) : Except String MValue :=
  match v with
  | some x => .ok x
  | none => .error ("KeyError: " ++ key)

/-- Kinematics collaborator: beam rigidity `brho` and its magnitude-only
variant `brho_`. -/
structure Kinematics where
  brho : ℚ
  brho_ : ℚ

/-- Per-conversion options mapping.  `R0` is the magnet bore radius in meters
(`options.get('R0', 10 * ureg.cm)` defaults it to 10 cm = 0.1 m).  The
`command` class-override key of the source is an external class-injection
mechanism and is not modelled: the converters below instantiate the default
command classes. -/
structure Options where
  R0 : Option ℚ := none

/-- Bore radius in meters resolved from the options (default 10 cm). -/
def Options.boreRadius (o : Options) : ℚ := o.R0.getD (1 / 10)

/-- Converter for the MAD-X `marker` keyword: one `Marker` labelled from the
element's name (`generate_label(prefix=element.name)` is modelled as taking
the name as the label). -/
def marker_to_zgoubi (element : Element) (_kinematics : Kinematics)
    (_options : Options) : Except String (List Command) :=
  .ok [Command.Marker element.name]

/-- Converter for the MAD-X `drift` keyword: one `Drift` with `XL` read from
the element's `L` (a missing `L` propagates the `KeyError`). -/
def drift_to_zgoubi (element : Element) (_kinematics : Kinematics)
    (_options : Options) : Except String (List Command) := do
  let l ← req element.L "L"
  .ok [Command.Drift element.name l]

/-- Converter for the MAD-X `rbend` keyword: exactly one `Multipole` with
`B1 = brho / (L / ANGLE)`, `B2 = K1L / L * brho_ * R0`, `R1 = R2 = TILT` and
`KPOS = 3`.  There is no zero-angle guard: `ANGLE = 0` makes `L / ANGLE`
raise. -/
def rbend_to_zgoubi (element : Element) (kinematics : Kinematics)
    (options : Options) : Except String (List Command) := do
  let bore_radius := options.boreRadius
  let l ← req element.L "L"
  let angle ← req element.ANGLE "ANGLE"
  let ratio ← MValue.div l angle
  let b1 ← MValue.div (MValue.num kinematics.brho) ratio
  let k1l ← req element.K1L "K1L"
  let b2q ← MValue.div k1l l
  let b2 := (b2q.mul (MValue.num kinematics.brho_)).mul (MValue.num bore_radius)
  let tilt ← req element.TILT "TILT"
  .ok [Command.Multipole element.name l (MValue.num bore_radius) b1 b2 tilt tilt 3]

/-- Tilt as read by the sbend converter: a `NaN` tilt is read as 0. -/
def effectiveTilt (tiltRaw : MValue) : MValue :=
  if tiltRaw.isNan then MValue.num 0 else tiltRaw

/-- Converter for the MAD-X `sbend` keyword, mirroring the three-way branch of
the source: `B1` is forced to 0 when `ANGLE == 0` (the division is never
evaluated), `NaN` pole-face angles and tilt are read as 0, the raw tilt
`!= 0` test attaches the `goldenrod` colour, and the bend is bracketed by
`ChangeRef` rotations for `ANGLE < 0` or for a non-`NaN` tilt. -/
def sbend_to_zgoubi (element : Element) (kinematics : Kinematics)
    (_options : Options) : Except String (List Command) := do
  let angle ← req element.ANGLE "ANGLE"
  let b1 ←
    if angle.beq (MValue.num 0) then
      pure (MValue.num 0)
    else do
      let l ← req element.L "L"
      let ratio ← MValue.div l angle.abs
      MValue.div (MValue.num kinematics.brho) ratio
  let e1 ← req element.E1 "E1"
  let we := if e1.isNan then MValue.num 0 else e1
  let e2 ← req element.E2 "E2"
  let ws := if e2.isNan then MValue.num 0 else e2
  let tiltRaw ← req element.TILT "TILT"
  let tilt := effectiveTilt tiltRaw
  let xl ← req element.L "L"
  let b : Command :=
    Command.Bend (element.name.take ZGOUBI_LABEL_LENGTH) xl b1 3
      (we.mul angle.sign) (ws.mul angle.sign)
      (if (tiltRaw.beq (MValue.num 0)) = false then some "goldenrod" else none)
  if angle.lt (MValue.num 0) then
    .ok [Command.ChangeRef (element.name ++ "_CRL") ((tilt.neg.add (MValue.num npPi)).neg),
         b,
         Command.ChangeRef (element.name ++ "_CRR") (tilt.neg.add (MValue.num npPi))]
  else
    if tiltRaw.isNan then
      .ok [b]
    else
      .ok [Command.ChangeRef (element.name ++ "_CRL") tilt,
           b,
           Command.ChangeRef (element.name ++ "_CRR") tilt.neg]

/-- Converter for the MAD-X `quadrupole` keyword.  The source first assigns
`gradient = 0` when both `K1` and `K1L` are absent (a dead store), then tests
`K1`: when `K1` is present the gradient is `K1` and no error is raised (even
with `K1L` also set); when `K1` is absent the `else` branch raises
`KeyError("K1 and K1L cannot be defined at the same time.")` (even when `K1L`
is absent too, despite the dead default). -/
def quadrupole_to_zgoubi (element : Element) (kinematics : Kinematics)
    (options : Options) : Except String (List Command) := do
  let bore_radius := options.boreRadius
  let _gradientDefault : Option MValue :=
    if element.K1.isNone && element.K1L.isNone then some (MValue.num 0) else none
  let gradient ←
    match element.K1 with
    | some k1 => pure k1
    | none => Except.error "K1 and K1L cannot be defined at the same time."
  let xl ← req element.L "L"
  .ok [Command.Quadrupole (element.name.take ZGOUBI_LABEL_LENGTH) xl
        (MValue.num bore_radius)
        ((gradient.mul (MValue.num kinematics.brho)).mul (MValue.num bore_radius))
        (MValue.num 0) (MValue.num 0) (MValue.num 0) (MValue.num 0)]

/-- Converter for the MAD-X `sextupole` keyword: one `Sextupole` carrying only
name and length. -/
def sextupole_to_zgoubi (element : Element) (_kinematics : Kinematics)
    (_options : Options) : Except String (List Command) := do
  let l ← req element.L "L"
  .ok [Command.Sextupole (element.name.take ZGOUBI_LABEL_LENGTH) l]

/-- Converter for the MAD-X `octupole` keyword: one `Octupole` carrying only
name and length. -/
def octupole_to_zgoubi (element : Element) (_kinematics : Kinematics)
    (_options : Options) : Except String (List Command) := do
  let l ← req element.L "L"
  .ok [Command.Octupole (element.name.take ZGOUBI_LABEL_LENGTH) l]

/-- Converter for the MAD-X `twcavity` keyword: a fixed 1 mm `Drift` spacer
(the source constructs it without a label) followed by a `Cavite` with
`IOPT = 10`, `XL` = 1 m, `FREQ` from the element, `V = VOLT * sign(brho)` and
`PHI_S = LAG + π/2`. -/
def twcavity_to_zgoubi (element : Element) (kinematics : Kinematics)
    (_options : Options) : Except String (List Command) := do
  let freq ← req element.FREQ "FREQ"
  let volt ← req element.VOLT "VOLT"
  let lag ← req element.LAG "LAG"
  let cavity : Command :=
    Command.Cavite (element.name.take ZGOUBI_LABEL_LENGTH) 10 (MValue.num 1)
      freq (volt.mul (MValue.num kinematics.brho).sign)
      (lag.add (MValue.num (npPi / 2)))
  .ok [Command.Drift "" (MValue.num 1), cavity]

/-!
Survey (`src/zgoubidoo/survey.py`).  `Frame` and the `Patchable` capability
are external collaborators (`zgoubidoo.frame`, `zgoubidoo.commands.patchable`),
so the beamline element type is modelled from the spec: a Patchable element
owns its exit-frame transform (the "exact transform algebra is owned by the
element") and records the entry frame it was placed at; a non-Patchable
element carries opaque internal state.  The frame type is an arbitrary
inhabited type `F` (`Frame()` default-constructs the identity pose, modelled
by `default`); in-place mutation becomes explicit state passing: `place`
returns the updated element, and the survey loop rebuilds the (shared,
mutated) element list. -/

/-- Modelled from the spec: a beamline entry.  `patch` is a Patchable element
(capability holder) with its own exit-frame transform and its recorded
placement entry frame (none until placed); `plain` is a non-Patchable element
with opaque internal state. -/
inductive Elem (F : Type) where
  | plain (state : Nat)
  | patch (transform : F → F) (entry : Option F)

/-- Test for the Patchable capability (`isinstance(e, Patchable)`). -/
def Elem.isPatchable {F : Type} : Elem F → Bool
  | .plain _ => false
  | .patch _ _ => true

/-- Modelled from the spec: `place(frame)` records the entry pose on the
element (in-place mutation becomes returning the updated element); it does
nothing on a non-Patchable element. -/
def Elem.place {F : Type} : Elem F → F → Elem F
  | .patch t _, f => .patch t (some f)
  | e, _ => e

/-- Modelled from the spec: the `exit` property — the element's own transform
applied to its recorded entry frame; only defined once placed. -/
def Elem.exitF {F : Type} : Elem F → Option F
  | .patch t (some f) => some (t f)
  | _ => none

/-- Recorded entry frame of a placed Patchable element. -/
def Elem.entryF {F : Type} : Elem F → Option F
  | .patch _ e => e
  | .plain _ => none

/-- Input: an ordered, named collection of elements forming a beamline. -/
structure Input (F : Type) where
  name : String
  line : List (Elem F)

/-- Loop body of `survey`: walk the element list threading the running frame;
non-Patchable elements are skipped (`continue`), a Patchable element is placed
at the current frame and the frame advances to its exit frame. -/
def surveyLine {F : Type} (frame : F) : List (Elem F) → List (Elem F)
  | [] => []
  | e :: rest =>
    if e.isPatchable then
      let placed := e.place frame
      placed :: surveyLine ((placed.exitF).getD frame) rest
    else
      e :: surveyLine frame rest

/-- Survey of a beamline: wraps the same name and (mutated) element list in a
new `Input`, starting from the given reference frame or a fresh default frame
(`reference_frame or Frame()`). -/
def survey {F : Type} [Inhabited F] (beamline : Input F)
    (reference_frame : Option F := none) : Input F :=
  let frame : F := reference_frame.getD default
  { name := beamline.name, line := surveyLine frame beamline.line }

/-- Patchable sublist of a line (the elements `survey` actually places). -/
def patchOnly {F : Type} (l : List (Elem F)) : List (Elem F) :=
  l.filter (·.isPatchable)

/-- Skeleton relation: the surveyed element is the same element as the
original, with at most its recorded placement updated (the value-semantics
rendering of "mutated in place"). -/
def Elem.sameSkeleton {F : Type} : Elem F → Elem F → Prop
  | .plain s, .plain s' => s = s'
  | .patch t _, .patch t' _ => t = t'
  | _, _ => False

/-- Every Patchable element at the head of a surveyed line was placed at the
frame the survey loop started from. -/
theorem surveyLine_patchOnly_head {F : Type} :
    ∀ (l : List (Elem F)) (f : F) (x : Elem F),
      (patchOnly (surveyLine f l)).head? = some x → x.entryF = some f := by
  intro l
  induction l with
  | nil =>
    intro f x h
    simp [surveyLine, patchOnly] at h
  | cons e rest ih =>
    intro f x h
    cases e with
    | plain s =>
      exact ih f x (by simpa [surveyLine, patchOnly] using h)
    | patch t en =>
      simp [surveyLine, patchOnly, Elem.isPatchable, Elem.place, Elem.exitF] at h
      simp [← h, Elem.entryF]

/-- Along a surveyed line, each placed Patchable element's recorded entry
frame is the exit frame of the Patchable element before it. -/
theorem surveyLine_chain {F : Type} :
    ∀ (l : List (Elem F)) (f : F),
      List.Chain' (fun a b => b.entryF = a.exitF) (patchOnly (surveyLine f l)) := by
  intro l
  induction l with
  | nil =>
    intro f
    simp [surveyLine, patchOnly]
  | cons e rest ih =>
    intro f
    cases e with
    | plain s =>
      simpa [surveyLine, patchOnly, Elem.isPatchable] using ih f
    | patch t en =>
      have htail := ih (t f)
      have hhead : ∀ b ∈ (patchOnly (surveyLine (t f) rest)).head?,
          Elem.entryF b = Elem.exitF (Elem.patch t (some f)) := by
        intro b hb
        rw [Option.mem_def] at hb
        simpa [Elem.exitF] using surveyLine_patchOnly_head rest (t f) b hb
      have : List.Chain' (fun a b => b.entryF = a.exitF)
          (Elem.patch t (some f) :: patchOnly (surveyLine (t f) rest)) :=
        List.chain'_cons'.mpr ⟨hhead, htail⟩
      simpa [surveyLine, patchOnly, Elem.isPatchable, Elem.place, Elem.exitF] using this

/-- Surveying keeps the element list's skeleton: same length, same elements,
only placement state updated. -/
theorem surveyLine_sameSkeleton {F : Type} :
    ∀ (l : List (Elem F)) (f : F),
      List.Forall₂ Elem.sameSkeleton l (surveyLine f l) := by
  intro l
  induction l with
  | nil =>
    intro f
    simp [surveyLine]
  | cons e rest ih =>
    intro f
    cases e with
    | plain s =>
      exact List.Forall₂.cons (by simp [Elem.sameSkeleton]) (by
        simpa [surveyLine, Elem.isPatchable] using ih f)
    | patch t en =>
      have : List.Forall₂ Elem.sameSkeleton (Elem.patch t en :: rest)
          (Elem.patch t (some f) :: surveyLine (t f) rest) :=
        List.Forall₂.cons (by simp [Elem.sameSkeleton]) (ih (t f))
      simpa [surveyLine, Elem.isPatchable, Elem.place, Elem.exitF] using this

/-- Non-Patchable elements come out of the survey loop untouched. -/
theorem surveyLine_nonpatch_fixed {F : Type} :
    ∀ (l : List (Elem F)) (f : F),
      List.Forall₂ (fun a b => a.isPatchable = false → b = a) l (surveyLine f l) := by
  intro l
  induction l with
  | nil =>
    intro f
    simp [surveyLine]
  | cons e rest ih =>
    intro f
    cases e with
    | plain s =>
      exact List.Forall₂.cons (fun _ => rfl) (by
        simpa [surveyLine, Elem.isPatchable] using ih f)
    | patch t en =>
      have : List.Forall₂ (fun a b => Elem.isPatchable a = false → b = a)
          (Elem.patch t en :: rest)
          (Elem.patch t (some f) :: surveyLine (t f) rest) :=
        List.Forall₂.cons (by simp [Elem.isPatchable]) (ih (t f))
      simpa [surveyLine, Elem.isPatchable, Elem.place, Elem.exitF] using this

/-- The placed Patchable elements of a surveyed line are exactly the survey of
the line with every non-Patchable element removed: skipped elements do not
advance the running frame. -/
theorem patchOnly_surveyLine {F : Type} :
    ∀ (l : List (Elem F)) (f : F),
      patchOnly (surveyLine f l) = surveyLine f (patchOnly l) := by
  intro l
  induction l with
  | nil =>
    intro f
    simp [surveyLine, patchOnly]
  | cons e rest ih =>
    intro f
    cases e with
    | plain s =>
      simpa [surveyLine, patchOnly, Elem.isPatchable] using ih f
    | patch t en =>
      simp [surveyLine, patchOnly, Elem.isPatchable, Elem.place, Elem.exitF]
      simpa [patchOnly] using ih (t f)

/-- Example beamline over the frame type ℤ used to instantiate the survey
theorems: two Patchable elements separated by non-Patchable ones. -/
def exBeamline : Input ℤ :=
  { name := "BL",
    line := [Elem.plain 7, Elem.patch (fun x => x + 1) none,
             Elem.plain 3, Elem.patch (fun x => x * 2) none] }

/-- C1: for every beamline, `survey(beamline, reference_frame)` returns a new
`Input` with the same name and the same element list (elements mutated in
place, here: same skeleton), and places each Patchable element so that the
frame passed to its `place` call equals the exit frame of the previous
Patchable element, the provided reference frame (or a fresh default frame)
for the first one. -/
theorem survey_preserves_line_and_chains_frames {F : Type} [Inhabited F]
    (beamline : Input F) (reference_frame : Option F) :
    (survey beamline reference_frame).name = beamline.name ∧
    List.Forall₂ Elem.sameSkeleton beamline.line (survey beamline reference_frame).line ∧
    (∀ x, (patchOnly (survey beamline reference_frame).line).head? = some x →
        x.entryF = some (reference_frame.getD default)) ∧
    List.Chain' (fun a b => b.entryF = a.exitF)
      (patchOnly (survey beamline reference_frame).line) := by
  refine ⟨rfl, ?_, ?_, ?_⟩
  · exact surveyLine_sameSkeleton beamline.line _
  · intro x h
    exact surveyLine_patchOnly_head beamline.line _ x h
  · exact surveyLine_chain beamline.line _

/-- Witness for C1 on a concrete four-element beamline with reference frame 5. -/
theorem survey_preserves_line_and_chains_frames_witness :
    (survey exBeamline (some 5)).name = exBeamline.name ∧
    List.Forall₂ Elem.sameSkeleton exBeamline.line (survey exBeamline (some 5)).line ∧
    (∀ x, (patchOnly (survey exBeamline (some 5)).line).head? = some x →
        x.entryF = some ((some (5 : ℤ)).getD default)) ∧
    List.Chain' (fun a b => b.entryF = a.exitF)
      (patchOnly (survey exBeamline (some 5)).line) :=
  survey_preserves_line_and_chains_frames exBeamline (some 5)

/-- C2: survey leaves every non-Patchable element unchanged and does not
advance the running frame across it: the placed Patchable elements are
exactly those of the survey of the line with all non-Patchable elements
removed. -/
theorem survey_skips_non_patchable {F : Type} [Inhabited F]
    (beamline : Input F) (reference_frame : Option F) :
    List.Forall₂ (fun a b => a.isPatchable = false → b = a)
      beamline.line (survey beamline reference_frame).line ∧
    patchOnly (survey beamline reference_frame).line
      = surveyLine (reference_frame.getD default) (patchOnly beamline.line) :=
  ⟨surveyLine_nonpatch_fixed beamline.line _, patchOnly_surveyLine beamline.line _⟩

/-- Witness for C2 on a concrete four-element beamline with the default
starting frame. -/
theorem survey_skips_non_patchable_witness :
    List.Forall₂ (fun a b => a.isPatchable = false → b = a)
      exBeamline.line (survey exBeamline none).line ∧
    patchOnly (survey exBeamline none).line
      = surveyLine ((none : Option ℤ).getD default) (patchOnly exBeamline.line) :=
  survey_skips_non_patchable exBeamline none

/-- Bend recognizer on commands. -/
def Command.isBend : Command → Bool
  | .Bend _ _ _ _ _ _ _ => true
  | _ => false

/-- The `B1` field of a `Bend` command. -/
def Command.b1? : Command → Option MValue
  | .Bend _ _ b1 _ _ _ _ => some b1
  | _ => none

/-- The `COLOR` annotation of a `Bend` command. -/
def Command.bendColor : Command → Option String
  | .Bend _ _ _ _ _ _ c => c
  | _ => none

/-- The `B1` field of the first `Bend` among a converter's output commands. -/
def firstBendB1 (cmds : List Command) : Option MValue :=
  (cmds.filterMap Command.b1?).head?

/-- Element carrying the keys the sbend converter reads. -/
def sbendElem (name : String) (l a e1 e2 tilt : MValue) : Element :=
  { name := name, L := some l, ANGLE := some a, TILT := some tilt,
    E1 := some e1, E2 := some e2 }

/-- Element carrying the keys the rbend converter reads. -/
def rbendElem (name : String) (l a : ℚ) (k1l tilt : MValue) : Element :=
  { name := name, L := some (MValue.num l), ANGLE := some (MValue.num a),
    K1L := some k1l, TILT := some tilt }

/-- Element carrying the keys the twcavity converter reads. -/
def twcavityElem (name : String) (freq volt lag : MValue) : Element :=
  { name := name, FREQ := some freq, VOLT := some volt, LAG := some lag }

/-- Example kinematics with rigidity 3. -/
def exKin : Kinematics := { brho := 3, brho_ := 3 }

/-- Default (empty) conversion options. -/
def exOptions : Options := {}

theorem req_some (x : MValue) (key : String) : req (some x) key = .ok x := rfl

theorem MValue.beq_zero_of_ne {a : MValue} (h : a ≠ MValue.num 0) :
    a.beq (MValue.num 0) = false := by
  cases a with
  | nan => rfl
  | num q =>
    have hq : q ≠ 0 := fun hq0 => h (by rw [hq0])
    simp [MValue.beq, hq]

theorem MValue.div_num_ne_zero (x : MValue) {b : ℚ} (hb : b ≠ 0) :
    MValue.div x (MValue.num b) =
      .ok (match x with | MValue.nan => MValue.nan | MValue.num a => MValue.num (a / b)) := by
  cases x <;> simp [MValue.div, hb]

theorem MValue.div_num_zero (x : MValue) :
    MValue.div x (MValue.num 0) = .error "ZeroDivisionError: float division by zero" := by
  cases x <;> simp [MValue.div]

/-- Quadrupole element with both K1 and K1L set. -/
def quadBoth : Element :=
  { name := "QF", L := some (MValue.num 1), K1 := some (MValue.num 2),
    K1L := some (MValue.num 3) }

/-- Quadrupole element with neither K1 nor K1L set. -/
def quadNeither : Element := { name := "QD", L := some (MValue.num 1) }

/-- C3 (documents the code bug): on an element with both K1 = 2 and K1L = 3
set, `quadrupole_to_zgoubi` does not raise the invalid-combination error the
claim (and the converter's own error message) describes; it succeeds,
silently using K1, returning a Quadrupole with B0 = 2 * brho * bore_radius
= 2 * 3 * 1/10 = 3/5. -/
theorem quadrupole_guard_does_not_fire_on_both :
    quadrupole_to_zgoubi quadBoth exKin exOptions
      = .ok [Command.Quadrupole "QF" (MValue.num 1) (MValue.num (1 / 10))
              (MValue.num (3 / 5)) (MValue.num 0) (MValue.num 0)
              (MValue.num 0) (MValue.num 0)] := by
  norm_num [quadrupole_to_zgoubi, quadBoth, exKin, exOptions, Options.boreRadius,
    req, MValue.mul, Bind.bind, Except.bind, pure, Except.pure, ZGOUBI_LABEL_LENGTH]
  rfl

/-- C4 (documents the code bug): on an element with neither K1 nor K1L
present, `quadrupole_to_zgoubi` does not succeed with a zero default
gradient (that assignment is dead); the inverted guard raises the
invalid-combination error instead. -/
theorem quadrupole_raises_on_neither :
    quadrupole_to_zgoubi quadNeither exKin exOptions
      = .error "K1 and K1L cannot be defined at the same time." := by
  rfl

/-- C9: for every twcavity element, the converter returns exactly two
commands: a 1 mm Drift spacer, then a Cavite with IOPT = 10, XL = 1 m, FREQ
from the element, V = VOLT * sign(brho) and PHI_S = LAG + π/2. -/
theorem twcavity_drift_then_cavite (name : String) (freq volt lag : MValue)
    (kinematics : Kinematics) (options : Options) :
    twcavity_to_zgoubi (twcavityElem name freq volt lag) kinematics options
      = .ok [Command.Drift "" (MValue.num 1),
             Command.Cavite (name.take ZGOUBI_LABEL_LENGTH) 10 (MValue.num 1)
               freq (volt.mul (MValue.num kinematics.brho).sign)
               (lag.add (MValue.num (npPi / 2)))] := rfl

theorem MValue.beq_zero_of_lt_zero {a : MValue} (h : a.lt (MValue.num 0) = true) :
    a.beq (MValue.num 0) = false := by
  cases a with
  | nan => rfl
  | num q =>
    simp [MValue.lt] at h
    simp [MValue.beq]
    exact ne_of_lt h

/-- Unfolding of the sbend converter on an element carrying all the keys it
reads, used to settle the sbend claims. -/
theorem sbend_unfold (name : String) (l a e1 e2 tilt : MValue)
    (kinematics : Kinematics) (options : Options) :
    sbend_to_zgoubi (sbendElem name l a e1 e2 tilt) kinematics options =
      (if a.beq (MValue.num 0) then Except.ok (MValue.num 0)
       else (MValue.div l a.abs).bind fun r =>
              MValue.div (MValue.num kinematics.brho) r).bind fun b1 =>
        let we := if e1.isNan then MValue.num 0 else e1
        let ws := if e2.isNan then MValue.num 0 else e2
        let b : Command := Command.Bend (name.take ZGOUBI_LABEL_LENGTH) l b1 3
            (we.mul a.sign) (ws.mul a.sign)
            (if tilt.beq (MValue.num 0) = false then some "goldenrod" else none)
        if a.lt (MValue.num 0) then
          Except.ok [Command.ChangeRef (name ++ "_CRL")
                       (((effectiveTilt tilt).neg.add (MValue.num npPi)).neg),
                     b,
                     Command.ChangeRef (name ++ "_CRR")
                       ((effectiveTilt tilt).neg.add (MValue.num npPi))]
        else if tilt.isNan then
          Except.ok [b]
        else
          Except.ok [Command.ChangeRef (name ++ "_CRL") (effectiveTilt tilt), b,
                     Command.ChangeRef (name ++ "_CRR") (effectiveTilt tilt).neg] := by
  cases hb : a.beq (MValue.num 0)
  all_goals simp only [sbend_to_zgoubi, sbendElem, req, Bind.bind, Except.bind, hb,
    Bool.false_eq_true, if_false, if_true, pure, Except.pure]
  all_goals first
    | rfl
    | (cases MValue.div l a.abs <;> rfl)

/-- C5: for every sbend element with ANGLE = 0 the division brho / (L /
|ANGLE|) is never evaluated — the converter succeeds with the resulting Bend's
B1 exactly 0 even when L / |ANGLE| would raise — and for ANGLE ≠ 0 the Bend's
B1 is the value of brho / (L / |ANGLE|). -/
theorem sbend_zero_angle_guard (name : String) (l e1 e2 tilt a : MValue)
    (kinematics : Kinematics) (options : Options) :
    (a = MValue.num 0 →
      ∃ cmds, sbend_to_zgoubi (sbendElem name l a e1 e2 tilt) kinematics options
          = .ok cmds ∧ firstBendB1 cmds = some (MValue.num 0)) ∧
    (∀ r b1v, a ≠ MValue.num 0 →
      MValue.div l a.abs = .ok r →
      MValue.div (MValue.num kinematics.brho) r = .ok b1v →
      ∃ cmds, sbend_to_zgoubi (sbendElem name l a e1 e2 tilt) kinematics options
          = .ok cmds ∧ firstBendB1 cmds = some b1v) := by
  constructor
  · rintro rfl
    rw [sbend_unfold]
    cases ht : tilt.isNan <;>
      simp [MValue.beq, MValue.lt, Except.bind, ht, firstBendB1, Command.b1?]
  · intro r b1v ha hd1 hd2
    rw [sbend_unfold, MValue.beq_zero_of_ne ha]
    cases hlt : a.lt (MValue.num 0) <;> cases ht : tilt.isNan <;>
      simp [Except.bind, hlt, ht, hd1, hd2, firstBendB1, Command.b1?]

/-- Witness for C5: with ANGLE = 0 and L = 0 (so that L / |ANGLE| would raise)
the converter still succeeds with B1 = 0; with ANGLE = 4, L = 2 and brho = 3
the Bend's B1 is 3 / (2 / 4) = 6. -/
theorem sbend_zero_angle_guard_witness :
    (∃ cmds, sbend_to_zgoubi (sbendElem "SB4" (MValue.num 0) (MValue.num 0)
        MValue.nan MValue.nan MValue.nan) exKin exOptions
        = .ok cmds ∧ firstBendB1 cmds = some (MValue.num 0)) ∧
    (∃ cmds, sbend_to_zgoubi (sbendElem "SB5" (MValue.num 2) (MValue.num 4)
        MValue.nan MValue.nan MValue.nan) exKin exOptions
        = .ok cmds ∧ firstBendB1 cmds = some (MValue.num 6)) := by
  constructor
  · exact (sbend_zero_angle_guard "SB4" (MValue.num 0) MValue.nan MValue.nan
      MValue.nan (MValue.num 0) exKin exOptions).1 rfl
  · refine (sbend_zero_angle_guard "SB5" (MValue.num 2) MValue.nan MValue.nan
      MValue.nan (MValue.num 4) exKin exOptions).2 (MValue.num (1 / 2))
      (MValue.num 6) (by simp) ?_ ?_
    · norm_num [MValue.div, MValue.abs]
    · norm_num [MValue.div, exKin]

/-- C6: for every sbend element with ANGLE < 0 the converter returns exactly
three commands in order [ChangeRef, Bend, ChangeRef]; the exit ChangeRef
rotates by x = (-tilt + π) (tilt read as 0 when TILT is NaN) and the entry
ChangeRef rotates by its exact negative -x = -(-tilt + π). -/
theorem sbend_negative_angle_brackets (name : String) (l e1 e2 tilt a : MValue)
    (kinematics : Kinematics) (options : Options) (cmds : List Command)
    (hneg : a.lt (MValue.num 0) = true)
    (hok : sbend_to_zgoubi (sbendElem name l a e1 e2 tilt) kinematics options
      = .ok cmds) :
    ∃ b x, b.isBend = true ∧
      x = (effectiveTilt tilt).neg.add (MValue.num npPi) ∧
      cmds = [Command.ChangeRef (name ++ "_CRL") x.neg, b,
              Command.ChangeRef (name ++ "_CRR") x] := by
  rw [sbend_unfold, MValue.beq_zero_of_lt_zero hneg] at hok
  cases hd1 : MValue.div l a.abs with
  | error m =>
    simp [hd1, Except.bind] at hok
  | ok r =>
    cases hd2 : MValue.div (MValue.num kinematics.brho) r with
    | error m =>
      simp [hd1, hd2, Except.bind] at hok
    | ok b1v =>
      simp only [hd1, hd2, Except.bind, Bool.false_eq_true, if_false, hneg,
        if_true, Except.ok.injEq] at hok
      subst hok
      refine ⟨_, _, ?_, rfl, rfl⟩
      rfl

/-- Witness for C6: a concrete sbend with ANGLE = -1 and TILT = 1/4; the exit
rotation is -1/4 + π and the entry rotation is its negative. -/
theorem sbend_negative_angle_brackets_witness :
    ∃ b x, b.isBend = true ∧
      x = (effectiveTilt (MValue.num (1 / 4))).neg.add (MValue.num npPi) ∧
      [Command.ChangeRef "SB6_CRL"
         (((effectiveTilt (MValue.num (1 / 4))).neg.add (MValue.num npPi)).neg),
       Command.Bend "SB6" (MValue.num 1) (MValue.num 3) 3
         (MValue.num 0) (MValue.num 0) (some "goldenrod"),
       Command.ChangeRef "SB6_CRR"
         ((effectiveTilt (MValue.num (1 / 4))).neg.add (MValue.num npPi))]
      = [Command.ChangeRef ("SB6" ++ "_CRL") x.neg, b,
         Command.ChangeRef ("SB6" ++ "_CRR") x] := by
  refine sbend_negative_angle_brackets "SB6" (MValue.num 1) MValue.nan
    MValue.nan (MValue.num (1 / 4)) (MValue.num (-1)) exKin exOptions _
    (by norm_num [MValue.lt]) ?_
  rw [sbend_unfold]
  norm_num [MValue.beq, MValue.lt, MValue.abs, MValue.div, MValue.sign,
    MValue.isNan, MValue.mul, Except.bind, exKin]
  exact ⟨rfl, rfl, rfl⟩

theorem bind_eq_ok {α β : Type} {e : Except String α} {f : α → Except String β}
    {b : β} (h : e.bind f = .ok b) : ∃ a, e = .ok a ∧ f a = .ok b := by
  cases e with
  | error m => simp [Except.bind] at h
  | ok a => exact ⟨a, rfl, by simpa [Except.bind] using h⟩

/-- C7 counterexample: an sbend with TILT = NaN but ANGLE = -1 < 0 returns
three commands, not one — the negative-angle branch is tested before the
NaN-tilt branch. -/
theorem sbend_nan_tilt_three_commands_counterexample :
    sbend_to_zgoubi (sbendElem "SB7" (MValue.num 1) (MValue.num (-1))
        MValue.nan MValue.nan MValue.nan) exKin exOptions
      = .ok [Command.ChangeRef "SB7_CRL" (MValue.num (-npPi)),
             Command.Bend "SB7" (MValue.num 1) (MValue.num 3) 3
               (MValue.num 0) (MValue.num 0) (some "goldenrod"),
             Command.ChangeRef "SB7_CRR" (MValue.num npPi)] ∧
    (sbend_to_zgoubi (sbendElem "SB7" (MValue.num 1) (MValue.num (-1))
        MValue.nan MValue.nan MValue.nan) exKin exOptions).map List.length
      = .ok 3 := by
  constructor
  · rw [sbend_unfold]
    norm_num [MValue.beq, MValue.lt, MValue.abs, MValue.div, MValue.sign,
      MValue.isNan, MValue.mul, MValue.neg, MValue.add, effectiveTilt,
      Except.bind, exKin]
    exact ⟨rfl, rfl, rfl⟩
  · rw [sbend_unfold]
    norm_num [MValue.beq, MValue.lt, MValue.abs, MValue.div, MValue.isNan,
      Except.bind, Except.map, exKin]

/-- C7 (amended): for every sbend element whose ANGLE is not negative (the
`ANGLE < 0` branch is not taken, i.e. ANGLE ≥ 0 or ANGLE NaN), a NaN TILT
yields exactly one command (the Bend alone), and a non-NaN TILT yields three
commands with entry ChangeRef rotation TILT and exit ChangeRef rotation
-TILT. -/
theorem sbend_tilt_nan_single_command (name : String) (l e1 e2 tilt a : MValue)
    (kinematics : Kinematics) (options : Options) (cmds : List Command)
    (hnn : a.lt (MValue.num 0) = false)
    (hok : sbend_to_zgoubi (sbendElem name l a e1 e2 tilt) kinematics options
      = .ok cmds) :
    (tilt.isNan = true → ∃ b, b.isBend = true ∧ cmds = [b]) ∧
    (tilt.isNan = false → ∃ b, b.isBend = true ∧
      cmds = [Command.ChangeRef (name ++ "_CRL") tilt, b,
              Command.ChangeRef (name ++ "_CRR") tilt.neg]) := by
  rw [sbend_unfold] at hok
  obtain ⟨b1v, -, hok⟩ := bind_eq_ok hok
  simp only [hnn, Bool.false_eq_true, if_false] at hok
  constructor
  · intro ht
    simp only [ht, if_true, Except.ok.injEq] at hok
    subst hok
    refine ⟨_, ?_, rfl⟩
    rfl
  · intro ht
    simp only [ht, Bool.false_eq_true, if_false, Except.ok.injEq] at hok
    subst hok
    rw [show effectiveTilt tilt = tilt from by simp [effectiveTilt, ht]]
    refine ⟨_, ?_, rfl⟩
    rfl

/-- Witness for C7 (amended): with ANGLE = 1 a NaN tilt gives the Bend alone;
a tilt of 1/4 gives [ChangeRef 1/4, Bend, ChangeRef -(1/4)]. -/
theorem sbend_tilt_nan_single_command_witness :
    (∃ b, b.isBend = true ∧
      ([Command.Bend "SB8" (MValue.num 2) (MValue.num (3 / 2)) 3
          (MValue.num 0) (MValue.num 0) (some "goldenrod")] : List Command)
        = [b]) ∧
    (∃ b, b.isBend = true ∧
      ([Command.ChangeRef "SB9_CRL" (MValue.num (1 / 4)),
        Command.Bend "SB9" (MValue.num 2) (MValue.num (3 / 2)) 3
          (MValue.num 0) (MValue.num 0) (some "goldenrod"),
        Command.ChangeRef "SB9_CRR" (MValue.num (1 / 4)).neg] : List Command)
        = [Command.ChangeRef ("SB9" ++ "_CRL") (MValue.num (1 / 4)), b,
           Command.ChangeRef ("SB9" ++ "_CRR") (MValue.num (1 / 4)).neg]) := by
  constructor
  · refine (sbend_tilt_nan_single_command "SB8" (MValue.num 2) MValue.nan
      MValue.nan MValue.nan (MValue.num 1) exKin exOptions _
      (by norm_num [MValue.lt]) ?_).1 rfl
    rw [sbend_unfold]
    norm_num [MValue.beq, MValue.lt, MValue.abs, MValue.div, MValue.sign,
      MValue.isNan, MValue.mul, Except.bind, exKin]
    rfl
  · refine (sbend_tilt_nan_single_command "SB9" (MValue.num 2) MValue.nan
      MValue.nan (MValue.num (1 / 4)) (MValue.num 1) exKin exOptions _
      (by norm_num [MValue.lt]) ?_).2 rfl
    rw [sbend_unfold]
    norm_num [MValue.beq, MValue.lt, MValue.abs, MValue.div, MValue.sign,
      MValue.isNan, MValue.mul, effectiveTilt, Except.bind, exKin]
    exact ⟨rfl, rfl, rfl⟩

/-- C10: for every sbend element whose TILT is the NaN sentinel, the Bend
command in the output still carries the COLOR = goldenrod annotation, because
the colour test compares the raw TILT with != 0 and NaN compares unequal to
zero. -/
theorem sbend_nan_tilt_goldenrod (name : String) (l e1 e2 a : MValue)
    (kinematics : Kinematics) (options : Options) (cmds : List Command)
    (hok : sbend_to_zgoubi (sbendElem name l a e1 e2 MValue.nan) kinematics
      options = .ok cmds) :
    ∃ c ∈ cmds, c.isBend = true ∧ c.bendColor = some "goldenrod" := by
  rw [sbend_unfold] at hok
  obtain ⟨b1v, -, hok⟩ := bind_eq_ok hok
  cases hlt : a.lt (MValue.num 0) with
  | true =>
    simp only [hlt, if_true, Except.ok.injEq] at hok
    subst hok
    exact ⟨_, List.mem_cons_of_mem _ (List.mem_cons_self _ _), rfl, rfl⟩
  | false =>
    simp only [hlt, Bool.false_eq_true, if_false, MValue.isNan, if_true,
      Except.ok.injEq] at hok
    subst hok
    exact ⟨_, List.mem_cons_self _ _, rfl, rfl⟩

/-- Witness for C10: a concrete sbend with TILT = NaN whose single Bend
carries COLOR = goldenrod. -/
theorem sbend_nan_tilt_goldenrod_witness :
    ∃ c ∈ ([Command.Bend "SBA" (MValue.num 1) (MValue.num 3) 3
        (MValue.num 0) (MValue.num 0) (some "goldenrod")] : List Command),
      c.isBend = true ∧ c.bendColor = some "goldenrod" := by
  refine sbend_nan_tilt_goldenrod "SBA" (MValue.num 1) MValue.nan MValue.nan
    (MValue.num 1) exKin exOptions _ ?_
  rw [sbend_unfold]
  norm_num [MValue.beq, MValue.lt, MValue.abs, MValue.div, MValue.sign,
    MValue.isNan, MValue.mul, Except.bind, exKin]
  rfl

/-- C8: for every rbend element (with nonzero L and ANGLE, so the divisions
are defined) the converter returns exactly one Multipole with
B1 = brho / (L / ANGLE), R1 = R2 = TILT and KPOS = 3; and there is no
zero-angle guard: ANGLE = 0 makes the conversion raise the division error
instead of succeeding. -/
theorem rbend_single_multipole (name : String) (l a : ℚ) (k1l tilt : MValue)
    (kinematics : Kinematics) (options : Options) :
    (l ≠ 0 → a ≠ 0 →
      ∃ b2, rbend_to_zgoubi (rbendElem name l a k1l tilt) kinematics options
        = .ok [Command.Multipole name (MValue.num l)
            (MValue.num options.boreRadius)
            (MValue.num (kinematics.brho / (l / a))) b2 tilt tilt 3]) ∧
    (a = 0 → rbend_to_zgoubi (rbendElem name l a k1l tilt) kinematics options
        = .error "ZeroDivisionError: float division by zero") := by
  constructor
  · intro hl ha
    have hla : l / a ≠ 0 := div_ne_zero hl ha
    refine ⟨((match k1l with
        | MValue.nan => MValue.nan
        | MValue.num q => MValue.num (q / l)).mul
          (MValue.num kinematics.brho_)).mul (MValue.num options.boreRadius), ?_⟩
    simp only [rbend_to_zgoubi, rbendElem, req, Bind.bind, Except.bind,
      MValue.div_num_ne_zero _ ha, MValue.div_num_ne_zero _ hla,
      MValue.div_num_ne_zero _ hl, pure, Except.pure]
  · intro ha
    subst ha
    simp [rbend_to_zgoubi, rbendElem, req, Bind.bind, Except.bind, MValue.div]

/-- Witness for C8: with L = 2 m, ANGLE = 0.1 rad and brho = 3, B1 is
3 / (2 / (1/10)) = 3/20 (the spec's brho / 20 m); with ANGLE = 0 the
conversion raises. -/
theorem rbend_single_multipole_witness :
    (∃ b2, rbend_to_zgoubi (rbendElem "RB" 2 (1 / 10) (MValue.num 0)
        (MValue.num 0)) exKin exOptions
      = .ok [Command.Multipole "RB" (MValue.num 2)
          (MValue.num exOptions.boreRadius) (MValue.num (3 / 20)) b2
          (MValue.num 0) (MValue.num 0) 3]) ∧
    rbend_to_zgoubi (rbendElem "RB" 2 0 (MValue.num 0) (MValue.num 0)) exKin
        exOptions
      = .error "ZeroDivisionError: float division by zero" := by
  constructor
  · obtain ⟨b2, hb⟩ := (rbend_single_multipole "RB" 2 (1 / 10) (MValue.num 0)
      (MValue.num 0) exKin exOptions).1 (by norm_num) (by norm_num)
    refine ⟨b2, ?_⟩
    rw [hb]
    norm_num [exKin]
  · exact (rbend_single_multipole "RB" 2 0 (MValue.num 0) (MValue.num 0) exKin
      exOptions).2 rfl

end Zgoubidoo
